import Mathlib

/-!
Leveled logging of the WireGuard device (`device/logger.go`).

A shallow embedding of `device/logger.go`: the `Logger` aggregate, the
sentinel `DiscardLogf`, the factory `NewLogger`, the identity test
`isDiscardf` (with the package variable `discardLogfFptr` set by `init`) and
the guarded helpers `Device.verbosef` / `Device.errorf`.

Go function values are modelled together with the address of their closure
object, because `isDiscardf` compares exactly that address (the data word of
the `interface{}` the function value is boxed into).  Calls run on an explicit
machine state and may fault (a call through a nil function value panics).
-/

namespace wireguard

/-! ## Values, the outside world, faults -/

/-- An operand of a variadic `...interface{}` argument list. -/
inductive Value where
  | int (n : Int)
  | str (s : String)
  deriving DecidableEq, Repr

/-- The shape of `fmt.Sprintf`.  The formatter belongs to the Go standard
library, so every definition that formats a message takes it as a parameter. -/
abbrev Formatter := String → List Value → String

/-- A reading of the local wall clock, as returned by `time.Now()` and split by
`Time.Date` / `Time.Clock`. -/
structure Time where
  year : Nat
  month : Nat
  day : Nat
  hour : Nat
  min : Nat
  sec : Nat
  deriving DecidableEq, Repr

/-- The two standard streams a `log.Logger` may be attached to. -/
inductive File where
  | Stdout
  | Stderr
  deriving DecidableEq, Repr

/-- Everything a sink can observe or change: the bytes written so far to the
standard streams, the clock, and one caller-owned variable (a counter that a
caller-supplied sink may bump). -/
structure World where
  stdout : String
  stderr : String
  now : Time
  counter : Nat
  deriving DecidableEq, Repr

/-- Run-time faults. -/
inductive Fault where
  | nilDereference
  | panic (msg : String)
  deriving DecidableEq, Repr

/-- The method `Write` of an `os.File`: append the bytes to the stream. -/
def File.Write (f : File) (b : String) (w : World) : World :=
  match f with
  | .Stdout => { w with stdout := w.stdout ++ b }
  | .Stderr => { w with stderr := w.stderr ++ b }

/-! ## The part of the standard package `log` that `NewLogger` uses

`log` is not part of this repository; the definitions below follow the
standard library's `log.New`, `(*Logger).formatHeader`, `(*Logger).Output` and
`(*Logger).Printf` for the flags `Ldate`, `Ltime` and `Lmsgprefix` (the file,
microsecond and UTC flags, which `NewLogger` never sets, are left out). -/

namespace log

/-- Flag `log.Ldate`: the date in the local time zone, `2009/01/23`. -/
def Ldate : Nat := 1
/-- Flag `log.Ltime`: the time in the local time zone, `01:23:23`. -/
def Ltime : Nat := 2
/-- Flag `log.Lmsgprefix`: move the prefix from the start of the line to just
before the message. -/
def Lmsgprefix : Nat := 64

/-- A `log.Logger`: destination, line prefix and flags. -/
structure Logger where
  out : File
  pfx : String
  flag : Nat
  deriving DecidableEq, Repr

/-- The constructor `log.New(out, prefix, flag)`. -/
def New (out : File) (pfx : String) (flag : Nat) : Logger :=
  { out := out, pfx := pfx, flag := flag }

/-- The loop of `log.itoa`: assemble the decimal digits of `i` from the right,
zero-padded to `wid` digits.  The scratch buffer of the original has 20 bytes
(enough for any 64-bit integer): at most 19 rounds of the loop and the final
digit; the first argument counts the rounds left. -/
def itoaLoop : Nat → Nat → Int → List Char → List Char
  | 0, i, _, b => Char.ofNat (48 + i) :: b
  | fuel + 1, i, wid, b =>
    if i ≥ 10 ∨ wid > 1 then
      let q := i / 10
      itoaLoop fuel q (wid - 1) (Char.ofNat (48 + (i - q * 10)) :: b)
    else
      Char.ofNat (48 + i) :: b

/-- The helper `log.itoa(buf, i, wid)`, returning the bytes it appends. -/
def itoa (i : Nat) (wid : Int) : String :=
  String.mk (itoaLoop 19 i wid [])

/-- The date stamp written for `Ldate`: `2009/01/23`. -/
def dateStamp (t : Time) : String :=
  itoa t.year 4 ++ "/" ++ itoa t.month 2 ++ "/" ++ itoa t.day 2

/-- The time stamp written for `Ltime`: `01:23:23`. -/
def timeStamp (t : Time) : String :=
  itoa t.hour 2 ++ ":" ++ itoa t.min 2 ++ ":" ++ itoa t.sec 2

/-- The method `formatHeader`: prefix (unless `Lmsgprefix`), then the date and
the time, each followed by a space, then the prefix if `Lmsgprefix`. -/
def Logger.formatHeader (l : Logger) (t : Time) : String :=
  let buf := if l.flag &&& Lmsgprefix = 0 then l.pfx else ""
  let buf := if l.flag &&& Ldate ≠ 0 then buf ++ dateStamp t ++ " " else buf
  let buf := if l.flag &&& Ltime ≠ 0 then buf ++ timeStamp t ++ " " else buf
  if l.flag &&& Lmsgprefix ≠ 0 then buf ++ l.pfx else buf

/-- The line terminator `Output` adds: a newline, unless the message already
ends in one (`len(s) == 0 || s[len(s)-1] != '\n'`). -/
def terminator (s : String) : String :=
  if s.data.getLast? = some '\n' then "" else "\n"

/-- The method `Output`: read the clock, build header, message and terminator
in one buffer and hand it to the destination in a single `Write`. -/
def Logger.Output (l : Logger) (s : String) (w : World) : World :=
  let now := w.now
  let buf := l.formatHeader now ++ s ++ terminator s
  l.out.Write buf w

/-- The method `Printf`: `l.Output(2, fmt.Sprintf(format, v...))`. -/
def Logger.Printf (Sprintf : Formatter) (l : Logger) (format : String)
    (v : List Value) (w : World) : World :=
  l.Output (Sprintf format v) w

end log

/-! ## Function values and their identity -/

/-- Machine addresses, up to what the program can tell apart: the nil pointer,
the static closure object of the top-level function `DiscardLogf`, the type
descriptor of the sink type, and every other object, numbered. -/
inductive Addr where
  | null
  | discardLogfClosure
  | sinkType
  | obj (n : Nat)
  deriving DecidableEq, Repr

/-- A value of type `func(format string, args ...interface{})`:
the nil function, the top-level function `DiscardLogf`, a method value
`l.Printf` bound to a `log.Logger` (a closure object allocated when the method
value is taken), or any other function or closure, given by the number of its
closure object and by what it does when called. -/
inductive FuncVal where
  | nil
  | DiscardLogf
  | Printf (obj : Nat) (l : log.Logger)
  | func (obj : Nat) (body : String → List Value → World → Except Fault World)

/-- The pointer a function value consists of. -/
def FuncVal.ptr : FuncVal → Addr
  | .nil => .null
  | .DiscardLogf => .discardLogfClosure
  | .Printf n _ => .obj n
  | .func n _ => .obj n

/-- The two words of an `interface{}`: type descriptor and data. -/
structure eface where
  t : Addr
  d : Addr
  deriving DecidableEq, Repr

/-- Conversion `(interface{})(f)` of a function value: a function value is
pointer-shaped, so the data word is the function value itself. -/
def eface.ofFunc (f : FuncVal) : eface :=
  { t := .sinkType, d := f.ptr }

/-! ## The package `device` -/

/-- The struct `Logger`: the two sinks. -/
structure Logger where
  Verbosef : FuncVal
  Errorf : FuncVal

/-- Log level `LogLevelSilent`. -/
def LogLevelSilent : Int := 0
/-- Log level `LogLevelError`. -/
def LogLevelError : Int := 1
/-- Log level `LogLevelVerbose`. -/
def LogLevelVerbose : Int := 2

/-- One recorded call of a sink: which closure object, format, arguments. -/
structure Call where
  target : Addr
  format : String
  args : List Value
  deriving DecidableEq, Repr

/-- The state a program of the package runs on: the package variable
`discardLogfFptr`, the allocator (number of the next fresh object), the
outside world, and the record of the sink calls made so far. -/
structure Machine where
  discardLogfFptr : Addr
  heap : Nat
  world : World
  calls : List Call
  deriving DecidableEq, Repr

/-- A computation on the machine that may fault. -/
abbrev Exec (α : Type) := Machine → Except Fault (α × Machine)

/-- The machine when the process starts, before any package initialiser ran:
package variables hold their zero value, nothing has been written. -/
def Machine.boot : Machine :=
  { discardLogfFptr := .null
    heap := 0
    world := { stdout := "", stderr := "", now := ⟨2020, 1, 2, 3, 4, 5⟩, counter := 0 }
    calls := [] }

/-- Calling a function value: a nil function faults; otherwise the call is
recorded and the body runs.  The body of `DiscardLogf` is empty. -/
def FuncVal.call (Sprintf : Formatter) (f : FuncVal) (format : String)
    (args : List Value) : Exec Unit := fun m =>
  let m1 := { m with calls := m.calls ++ [⟨f.ptr, format, args⟩] }
  match f with
  | .nil => .error .nilDereference
  | .DiscardLogf => .ok ((), m1)
  | .Printf _ l => .ok ((), { m1 with world := l.Printf Sprintf format args m1.world })
  | .func _ body =>
    match body format args m1.world with
    | .error e => .error e
    | .ok w => .ok ((), { m1 with world := w })

/-- The closure `logf` inside `NewLogger`:
`log.New(os.Stdout, prefix+": "+prepend, log.Ldate|log.Ltime).Printf`,
a method value in a freshly allocated closure object. -/
def logf (prepend : String) (pfx : String) (m : Machine) : FuncVal × Machine :=
  (.Printf m.heap (log.New .Stdout (pfx ++ ": " ++ prepend) (log.Ldate ||| log.Ltime)),
   { m with heap := m.heap + 1 })

/-- The function `NewLogger(level, prepend)`. -/
def NewLogger (level : Int) (prepend : String) (m : Machine) : Logger × Machine :=
  let logger : Logger := { Verbosef := .DiscardLogf, Errorf := .DiscardLogf }
  let s1 : Logger × Machine :=
    if level ≥ LogLevelVerbose then
      ({ logger with Verbosef := (logf prepend "DEBUG" m).1 }, (logf prepend "DEBUG" m).2)
    else (logger, m)
  let s2 : Logger × Machine :=
    if level ≥ LogLevelError then
      ({ s1.1 with Errorf := (logf prepend "ERROR" s1.2).1 }, (logf prepend "ERROR" s1.2).2)
    else s1
  s2

/-- The package initialiser `init`: box `DiscardLogf` into an interface and
store the data word in `discardLogfFptr`. -/
def init (m : Machine) : Machine :=
  let iface := eface.ofFunc .DiscardLogf
  { m with discardLogfFptr := iface.d }

/-- The function `isDiscardf(fn)`: compare the data word of `fn` with
`discardLogfFptr`. -/
def isDiscardf (fn : eface) : Exec Bool := fun m =>
  .ok (decide (fn.d = m.discardLogfFptr), m)

/-- The struct `Device`, of which this file uses the field `log *Logger` only
(`none` is the nil pointer). -/
structure Device where
  log : Option Logger

/-- The method `(*Device).verbosef`. -/
def Device.verbosef (Sprintf : Formatter) (device : Device) (format : String)
    (args : List Value) : Exec Unit := fun m =>
  match device.log with
  | none => .error .nilDereference
  | some lg =>
    match isDiscardf (eface.ofFunc lg.Verbosef) m with
    | .error e => .error e
    | .ok (true, m1) => .ok ((), m1)
    | .ok (false, m1) => lg.Verbosef.call Sprintf format args m1

/-- The method `(*Device).errorf`. -/
def Device.errorf (Sprintf : Formatter) (device : Device) (format : String)
    (args : List Value) : Exec Unit := fun m =>
  match device.log with
  | none => .error .nilDereference
  | some lg =>
    match isDiscardf (eface.ofFunc lg.Errorf) m with
    | .error e => .error e
    | .ok (true, m1) => .ok ((), m1)
    | .ok (false, m1) => lg.Errorf.call Sprintf format args m1

/-! ## Reading aids for the statements below -/

/-- A message without its final newline, if it has one. -/
def chomp (s : String) : String :=
  if s.data.getLast? = some '\n' then String.mk s.data.dropLast else s

/-- Number of newline bytes in a piece of output, i.e. the number of lines it
terminates. -/
def newlines (s : String) : Nat :=
  s.data.count '\n'

/-- A piece of output that is exactly one line: one newline, at the end. -/
def isOneLine (s : String) : Bool :=
  newlines s == 1 && s.data.getLast? == some '\n'

/-- A fragment of `fmt.Sprintf` used to instantiate the formatter at concrete
inputs: the verbs `%d`, `%s` and `%v` print the next operand, `%%` prints a
percent sign, every other byte is copied.  It agrees with `fmt.Sprintf`
on formats that use only these verbs, with one operand of the matching kind
per verb; other formats are outside the fragment. -/
def sprintfBasic.loop : List Char → List Value → List Char
  | [], _ => []
  | '%' :: '%' :: cs, args => '%' :: sprintfBasic.loop cs args
  | '%' :: 'd' :: cs, .int n :: args => (toString n).data ++ sprintfBasic.loop cs args
  | '%' :: 's' :: cs, .str s :: args => s.data ++ sprintfBasic.loop cs args
  | '%' :: 'v' :: cs, .int n :: args => (toString n).data ++ sprintfBasic.loop cs args
  | '%' :: 'v' :: cs, .str s :: args => s.data ++ sprintfBasic.loop cs args
  | c :: cs, args => c :: sprintfBasic.loop cs args

/-- The formatter built from `sprintfBasic.loop`. -/
def sprintfBasic : Formatter := fun format args =>
  String.mk (sprintfBasic.loop format.data args)

/-- A caller-supplied sink that does nothing, in closure object `n`. -/
def noopSink (n : Nat) : FuncVal :=
  .func n (fun _ _ w => .ok w)

/-- A caller-supplied sink that bumps the counter and writes a line, in
closure object `n`. -/
def countingSink (n : Nat) : FuncVal :=
  .func n (fun format _ w =>
    .ok { w with counter := w.counter + 1, stdout := w.stdout ++ format ++ "\n" })


/-- The log line the specification describes for one message: level tag, a
colon and a space, the configured prefix, the date, a space, the time, a
space, the message, a newline. -/
def logLine (tag p : String) (t : Time) (msg : String) : String :=
  tag ++ ": " ++ p ++ log.dateStamp t ++ " " ++ log.timeStamp t ++ " " ++ msg ++ "\n"

/-- What a run has left on standard output, if it did not fault. -/
def stdoutAfter (r : Except Fault (Unit × Machine)) : Option String :=
  match r with
  | .error _ => none
  | .ok (_, m) => some m.world.stdout

/-- Sequencing of two machine computations: run the first and feed its result
and the machine it leaves to the second; a fault ends the run. -/
def Exec.bind {α β : Type} (x : Exec α) (k : α → Exec β) : Exec β := fun m =>
  match x m with
  | .error e => .error e
  | .ok (a, m1) => k a m1

/-- The computation that returns a value and leaves the machine alone. -/
def Exec.ret {α : Type} (a : α) : Exec α := fun m => .ok (a, m)

/-! ## Auxiliary lemmas -/

theorem digit_ne_newline (k : Nat) : Char.ofNat (48 + k) ≠ '\n' := by
  intro h
  have h2 : (Char.ofNat (48 + k)).toNat = 10 := by rw [h]; rfl
  by_cases hv : (48 + k).isValidChar
  · simp [Char.ofNat, hv, Char.ofNatAux, Char.toNat, UInt32.toNat] at h2
    omega
  · simp [Char.ofNat, hv, Char.toNat] at h2
    exact absurd h2 (by decide)

theorem itoaLoop_no_newline (fuel i : Nat) (wid : Int) (b : List Char)
    (hb : '\n' ∉ b) : '\n' ∉ log.itoaLoop fuel i wid b := by
  induction fuel generalizing i wid b with
  | zero =>
    simp only [log.itoaLoop, List.mem_cons, not_or]
    exact ⟨fun h => digit_ne_newline i h.symm, hb⟩
  | succ n ih =>
    simp only [log.itoaLoop]
    split
    · apply ih
      simp only [List.mem_cons, not_or]
      exact ⟨fun h => digit_ne_newline _ h.symm, hb⟩
    · simp only [List.mem_cons, not_or]
      exact ⟨fun h => digit_ne_newline i h.symm, hb⟩

theorem itoa_no_newline (i : Nat) (wid : Int) : '\n' ∉ (log.itoa i wid).data := by
  simpa [log.itoa] using itoaLoop_no_newline 19 i wid [] (by simp)

theorem dateStamp_no_newline (t : Time) : '\n' ∉ (log.dateStamp t).data := by
  simp [log.dateStamp, String.data_append, itoa_no_newline]

theorem timeStamp_no_newline (t : Time) : '\n' ∉ (log.timeStamp t).data := by
  simp [log.timeStamp, String.data_append, itoa_no_newline]

theorem ptr_eq_discard_iff (f : FuncVal) :
    f.ptr = Addr.discardLogfClosure ↔ f = FuncVal.DiscardLogf := by
  cases f <;> simp [FuncVal.ptr]

theorem isDiscardf_init (f : FuncVal) (m0 : Machine) :
    isDiscardf (eface.ofFunc f) (init m0)
      = .ok (decide (f.ptr = Addr.discardLogfClosure), init m0) := by
  simp [isDiscardf, init, eface.ofFunc, FuncVal.ptr]

theorem NewLogger_Verbosef_eq (level : Int) (p : String) (m : Machine) :
    (NewLogger level p m).1.Verbosef =
      if level ≥ LogLevelVerbose then
        FuncVal.Printf m.heap (log.New .Stdout ("DEBUG" ++ ": " ++ p) (log.Ldate ||| log.Ltime))
      else FuncVal.DiscardLogf := by
  unfold NewLogger logf
  by_cases h1 : level ≥ LogLevelVerbose <;> by_cases h2 : level ≥ LogLevelError <;>
    simp [h1, h2]

theorem NewLogger_Errorf_eq (level : Int) (p : String) (m : Machine) :
    (NewLogger level p m).1.Errorf =
      if level ≥ LogLevelError then
        FuncVal.Printf (if level ≥ LogLevelVerbose then m.heap + 1 else m.heap)
          (log.New .Stdout ("ERROR" ++ ": " ++ p) (log.Ldate ||| log.Ltime))
      else FuncVal.DiscardLogf := by
  unfold NewLogger logf
  by_cases h1 : level ≥ LogLevelVerbose <;> by_cases h2 : level ≥ LogLevelError <;>
    simp [h1, h2]

/-! ## The factory -/

/-- C1: with `LogLevelSilent = 0`, `LogLevelError = 1`, `LogLevelVerbose = 2`,
for every integer level (also below 0 and above 2) and every prefix, the
`Verbosef` slot of `NewLogger` is the sentinel `DiscardLogf` exactly when the
level is below `LogLevelVerbose`, and the `Errorf` slot is the sentinel exactly
when the level is below `LogLevelError`. -/
theorem NewLogger_sentinel_iff (level : Int) (p : String) (m : Machine) :
    LogLevelSilent = 0 ∧ LogLevelError = 1 ∧ LogLevelVerbose = 2 ∧
    ((NewLogger level p m).1.Verbosef = FuncVal.DiscardLogf ↔ level < LogLevelVerbose) ∧
    ((NewLogger level p m).1.Errorf = FuncVal.DiscardLogf ↔ level < LogLevelError) := by
  refine ⟨rfl, rfl, rfl, ?_, ?_⟩
  · rw [NewLogger_Verbosef_eq]
    by_cases h : level ≥ LogLevelVerbose
    · rw [if_pos h]
      exact ⟨fun h0 => (by cases h0), fun hl => absurd h (not_le.mpr hl)⟩
    · rw [if_neg h]
      exact ⟨fun _ => lt_of_not_ge h, fun _ => rfl⟩
  · rw [NewLogger_Errorf_eq]
    by_cases h : level ≥ LogLevelError
    · rw [if_pos h]
      exact ⟨fun h0 => (by cases h0), fun hl => absurd h (not_le.mpr hl)⟩
    · rw [if_neg h]
      exact ⟨fun _ => lt_of_not_ge h, fun _ => rfl⟩

/-- C7: for every integer level and every prefix, neither slot of the `Logger`
returned by `NewLogger` is nil; each slot is the sentinel `DiscardLogf` or a
`Printf` method value of a `log.Logger` that writes to standard output. -/
theorem NewLogger_slots_not_nil (level : Int) (p : String) (m : Machine) :
    (NewLogger level p m).1.Verbosef ≠ FuncVal.nil ∧
    (NewLogger level p m).1.Errorf ≠ FuncVal.nil ∧
    ((NewLogger level p m).1.Verbosef = FuncVal.DiscardLogf ∨
      ∃ n l, (NewLogger level p m).1.Verbosef = FuncVal.Printf n l ∧ l.out = File.Stdout) ∧
    ((NewLogger level p m).1.Errorf = FuncVal.DiscardLogf ∨
      ∃ n l, (NewLogger level p m).1.Errorf = FuncVal.Printf n l ∧ l.out = File.Stdout) := by
  rw [NewLogger_Verbosef_eq, NewLogger_Errorf_eq]
  refine ⟨?_, ?_, ?_, ?_⟩
  · split <;> simp
  · split <;> simp
  · split
    · exact Or.inr ⟨_, _, rfl, rfl⟩
    · exact Or.inl rfl
  · split
    · exact Or.inr ⟨_, _, rfl, rfl⟩
    · exact Or.inl rfl

/-- C9: `NewLogger` logs at the given level and above: at every level, a
non-sentinel `Verbosef` slot comes with a non-sentinel `Errorf` slot, and for
levels `L1 ≤ L2` every slot that is non-sentinel at `L1` is non-sentinel at
`L2`. -/
theorem NewLogger_level_monotone (L1 L2 : Int) (p : String) (m1 m2 : Machine)
    (h : L1 ≤ L2) :
    ((NewLogger L1 p m1).1.Verbosef ≠ FuncVal.DiscardLogf →
      (NewLogger L1 p m1).1.Errorf ≠ FuncVal.DiscardLogf) ∧
    ((NewLogger L2 p m2).1.Verbosef ≠ FuncVal.DiscardLogf →
      (NewLogger L2 p m2).1.Errorf ≠ FuncVal.DiscardLogf) ∧
    ((NewLogger L1 p m1).1.Verbosef ≠ FuncVal.DiscardLogf →
      (NewLogger L2 p m2).1.Verbosef ≠ FuncVal.DiscardLogf) ∧
    ((NewLogger L1 p m1).1.Errorf ≠ FuncVal.DiscardLogf →
      (NewLogger L2 p m2).1.Errorf ≠ FuncVal.DiscardLogf) := by
  have hV : ∀ (L : Int) (m : Machine),
      (NewLogger L p m).1.Verbosef ≠ FuncVal.DiscardLogf ↔ LogLevelVerbose ≤ L := by
    intro L m
    rw [NewLogger_Verbosef_eq]
    by_cases hL : L ≥ LogLevelVerbose
    · rw [if_pos hL]
      exact ⟨fun _ => hL, fun _ h0 => by cases h0⟩
    · rw [if_neg hL]
      exact ⟨fun h0 => absurd rfl h0, fun h0 => absurd h0 hL⟩
  have hE : ∀ (L : Int) (m : Machine),
      (NewLogger L p m).1.Errorf ≠ FuncVal.DiscardLogf ↔ LogLevelError ≤ L := by
    intro L m
    rw [NewLogger_Errorf_eq]
    by_cases hL : L ≥ LogLevelError
    · rw [if_pos hL]
      exact ⟨fun _ => hL, fun _ h0 => by cases h0⟩
    · rw [if_neg hL]
      exact ⟨fun h0 => absurd rfl h0, fun h0 => absurd h0 hL⟩
  simp only [hV, hE, LogLevelVerbose, LogLevelError]
  refine ⟨?_, ?_, ?_, ?_⟩ <;> intro h0 <;> omega

/-- Witness for C9 at the levels `LogLevelError ≤ LogLevelVerbose`. -/
theorem NewLogger_level_monotone_witness :
    LogLevelError ≤ LogLevelVerbose ∧
    ((NewLogger LogLevelError "wg0: " Machine.boot).1.Errorf ≠ FuncVal.DiscardLogf →
      (NewLogger LogLevelVerbose "wg0: " Machine.boot).1.Errorf ≠ FuncVal.DiscardLogf) :=
  ⟨by decide,
   (NewLogger_level_monotone LogLevelError LogLevelVerbose "wg0: " Machine.boot Machine.boot
      (by decide)).2.2.2⟩

/-! ## The identity test -/

/-- C2: once `init` has run, `isDiscardf` answers true exactly for the sentinel
`DiscardLogf`: true for `DiscardLogf`; for a slot of `NewLogger` at any level
and prefix it is true exactly when that slot is the sentinel (the level is
below the threshold of the slot), so false for every installed writer; and
false for a caller-supplied function that does nothing but is another
function. -/
theorem isDiscardf_iff_sentinel (f : FuncVal) (m0 : Machine) :
    (∃ b, isDiscardf (eface.ofFunc f) (init m0) = .ok (b, init m0) ∧
      (b = true ↔ f = FuncVal.DiscardLogf)) ∧
    isDiscardf (eface.ofFunc FuncVal.DiscardLogf) (init m0) = .ok (true, init m0) ∧
    (∀ (level : Int) (p : String) (m : Machine),
      isDiscardf (eface.ofFunc (NewLogger level p m).1.Verbosef) (init m0)
        = .ok (decide (level < LogLevelVerbose), init m0)) ∧
    (∀ (level : Int) (p : String) (m : Machine),
      isDiscardf (eface.ofFunc (NewLogger level p m).1.Errorf) (init m0)
        = .ok (decide (level < LogLevelError), init m0)) ∧
    (∀ n : Nat, isDiscardf (eface.ofFunc (noopSink n)) (init m0) = .ok (false, init m0)) := by
  refine ⟨⟨decide (f.ptr = Addr.discardLogfClosure), isDiscardf_init f m0, ?_⟩,
    isDiscardf_init _ m0, ?_, ?_, ?_⟩
  · rw [decide_eq_true_iff]
    exact ptr_eq_discard_iff f
  · intro level p m
    rw [isDiscardf_init, NewLogger_Verbosef_eq]
    by_cases h : level ≥ LogLevelVerbose
    · simp [h, FuncVal.ptr]
    · have h2 : level < LogLevelVerbose := lt_of_not_ge h
      simp [h, h2, FuncVal.ptr]
  · intro level p m
    rw [isDiscardf_init, NewLogger_Errorf_eq]
    by_cases h : level ≥ LogLevelError
    · simp [h, FuncVal.ptr]
    · have h2 : level < LogLevelError := lt_of_not_ge h
      simp [h, h2, FuncVal.ptr]
  · intro n
    rw [isDiscardf_init]
    simp [noopSink, FuncVal.ptr]

/-- C8: `isDiscardf` never calls its argument and touches nothing: for every
sink and every machine it returns a boolean and leaves the machine (output
streams, counter, record of sink calls) as it was; two evaluations in a row
give the same answer; the answer does not depend on what the sink does.  For
comparison, calling the counting sink does bump the counter, write a line and
get recorded. -/
theorem isDiscardf_no_side_effect (S : Formatter) (f : FuncVal) (m : Machine) :
    (∃ b, isDiscardf (eface.ofFunc f) m = .ok (b, m)) ∧
    (∃ b, Exec.bind (isDiscardf (eface.ofFunc f)) (fun b1 =>
            Exec.bind (isDiscardf (eface.ofFunc f)) (fun b2 => Exec.ret (b1, b2))) m
          = .ok ((b, b), m)) ∧
    (∀ (n : Nat) (format : String) (args : List Value),
      (∃ b, isDiscardf (eface.ofFunc (countingSink n)) m = .ok (b, m)) ∧
      (∃ m1, (countingSink n).call S format args m = .ok ((), m1) ∧
        m1.world.counter = m.world.counter + 1 ∧
        m1.world.stdout = m.world.stdout ++ format ++ "\n" ∧
        m1.calls = m.calls ++ [⟨Addr.obj n, format, args⟩])) ∧
    (∀ (n : Nat) (body1 body2 : String → List Value → World → Except Fault World),
      isDiscardf (eface.ofFunc (FuncVal.func n body1)) m
        = isDiscardf (eface.ofFunc (FuncVal.func n body2)) m) := by
  refine ⟨⟨_, rfl⟩, ⟨_, rfl⟩, ?_, ?_⟩
  · intro n format args
    exact ⟨⟨_, rfl⟩, ⟨_, rfl, rfl, rfl, rfl⟩⟩
  · intro n body1 body2
    rfl

/-! ## The guarded helpers -/

/-- C3 (the code departs from the claim): with a nil slot the helpers do not
stay silent.  After `init`, `isDiscardf` answers false for the nil function,
so `verbosef` (respectively `errorf`) goes on to call through the nil slot and
the call faults. -/
theorem helpers_nil_slot_fault (S : Formatter) (other : FuncVal) (format : String)
    (args : List Value) (m0 : Machine) :
    isDiscardf (eface.ofFunc FuncVal.nil) (init m0) = .ok (false, init m0) ∧
    Device.verbosef S { log := some { Verbosef := FuncVal.nil, Errorf := other } }
        format args (init m0) = .error Fault.nilDereference ∧
    Device.errorf S { log := some { Verbosef := other, Errorf := FuncVal.nil } }
        format args (init m0) = .error Fault.nilDereference := by
  refine ⟨rfl, rfl, rfl⟩

/-- C4: when the `Errorf` slot of a device is the sentinel `DiscardLogf`,
assigned directly or installed by `NewLogger(LogLevelSilent, p)`, `errorf`
returns with the machine unchanged: nothing is written to any stream and no
sink call is recorded.  The same holds for `verbosef` and the `Verbosef`
slot. -/
theorem helpers_silent_on_sentinel (S : Formatter) (device : Device) (lg : Logger)
    (format : String) (args : List Value) (m0 : Machine)
    (hlog : device.log = some lg) :
    (lg.Errorf = FuncVal.DiscardLogf →
      device.errorf S format args (init m0) = .ok ((), init m0)) ∧
    (lg.Verbosef = FuncVal.DiscardLogf →
      device.verbosef S format args (init m0) = .ok ((), init m0)) ∧
    (∀ (p : String) (m : Machine),
      Device.errorf S { log := some (NewLogger LogLevelSilent p m).1 } format args (init m0)
        = .ok ((), init m0)) ∧
    (∀ (p : String) (m : Machine),
      Device.verbosef S { log := some (NewLogger LogLevelSilent p m).1 } format args (init m0)
        = .ok ((), init m0)) := by
  refine ⟨?_, ?_, ?_, ?_⟩
  · intro h
    simp [Device.errorf, hlog, h, isDiscardf_init, FuncVal.ptr]
  · intro h
    simp [Device.verbosef, hlog, h, isDiscardf_init, FuncVal.ptr]
  · intro p m
    rfl
  · intro p m
    rfl

/-- Witness for C4: a device whose two slots were assigned the sentinel. -/
theorem helpers_silent_on_sentinel_witness :
    Device.errorf sprintfBasic
        { log := some { Verbosef := FuncVal.DiscardLogf, Errorf := FuncVal.DiscardLogf } }
        "count=%d" [Value.int 5] (init Machine.boot)
      = .ok ((), init Machine.boot) :=
  (helpers_silent_on_sentinel sprintfBasic
      { log := some { Verbosef := FuncVal.DiscardLogf, Errorf := FuncVal.DiscardLogf } }
      { Verbosef := FuncVal.DiscardLogf, Errorf := FuncVal.DiscardLogf }
      "count=%d" [Value.int 5] Machine.boot rfl).1 rfl

/-- C5: when the `Verbosef` slot holds a sink that is neither nil nor the
sentinel, `verbosef` does exactly what one call of that sink with the same
format and the same argument list does (same result, same machine, same
fault if the sink faults), and that call is recorded once, with the format
and the arguments as given.  The same holds for `errorf` and `Errorf`. -/
theorem helpers_forward_to_sink (S : Formatter) (device : Device) (lg : Logger)
    (format : String) (args : List Value) (m0 : Machine)
    (hlog : device.log = some lg) :
    (lg.Verbosef ≠ FuncVal.nil → lg.Verbosef ≠ FuncVal.DiscardLogf →
      device.verbosef S format args (init m0) = lg.Verbosef.call S format args (init m0) ∧
      ∀ m1, device.verbosef S format args (init m0) = .ok ((), m1) →
        m1.calls = (init m0).calls ++ [⟨lg.Verbosef.ptr, format, args⟩]) ∧
    (lg.Errorf ≠ FuncVal.nil → lg.Errorf ≠ FuncVal.DiscardLogf →
      device.errorf S format args (init m0) = lg.Errorf.call S format args (init m0) ∧
      ∀ m1, device.errorf S format args (init m0) = .ok ((), m1) →
        m1.calls = (init m0).calls ++ [⟨lg.Errorf.ptr, format, args⟩]) := by
  have key : ∀ f : FuncVal, f ≠ FuncVal.DiscardLogf →
      ∀ m1, f.call S format args (init m0) = .ok ((), m1) →
        m1.calls = (init m0).calls ++ [⟨f.ptr, format, args⟩] := by
    intro f _ m1 hc
    cases f with
    | nil => simp [FuncVal.call] at hc
    | DiscardLogf => simp [FuncVal.call] at hc; rw [← hc]
    | Printf n l => simp [FuncVal.call] at hc; rw [← hc]
    | func n body =>
      simp only [FuncVal.call] at hc
      split at hc
      · cases hc
      · simp at hc; rw [← hc]
  constructor
  · intro _ hd
    have hp : lg.Verbosef.ptr ≠ Addr.discardLogfClosure :=
      fun h => hd ((ptr_eq_discard_iff _).1 h)
    have he : device.verbosef S format args (init m0)
        = lg.Verbosef.call S format args (init m0) := by
      simp [Device.verbosef, hlog, isDiscardf_init, hp]
    exact ⟨he, fun m1 h1 => key _ hd m1 (he ▸ h1)⟩
  · intro _ hd
    have hp : lg.Errorf.ptr ≠ Addr.discardLogfClosure :=
      fun h => hd ((ptr_eq_discard_iff _).1 h)
    have he : device.errorf S format args (init m0)
        = lg.Errorf.call S format args (init m0) := by
      simp [Device.errorf, hlog, isDiscardf_init, hp]
    exact ⟨he, fun m1 h1 => key _ hd m1 (he ▸ h1)⟩

/-- Witness for C5: a device whose `Verbosef` slot holds the counting sink. -/
theorem helpers_forward_to_sink_witness :
    Device.verbosef sprintfBasic
        { log := some { Verbosef := countingSink 7, Errorf := FuncVal.DiscardLogf } }
        "hello" [] (init Machine.boot)
      = (countingSink 7).call sprintfBasic "hello" [] (init Machine.boot) :=
  ((helpers_forward_to_sink sprintfBasic
      { log := some { Verbosef := countingSink 7, Errorf := FuncVal.DiscardLogf } }
      { Verbosef := countingSink 7, Errorf := FuncVal.DiscardLogf }
      "hello" [] Machine.boot rfl).1
    (fun h => by cases h) (fun h => by cases h)).1

/-! ## The lines the installed sinks write -/

theorem append_terminator (s : String) : s ++ log.terminator s = chomp s ++ "\n" := by
  unfold log.terminator chomp
  by_cases h : s.data.getLast? = some '\n'
  · rw [if_pos h, if_pos h]
    apply String.ext
    simp only [String.data_append]
    show s.data ++ [] = s.data.dropLast ++ ['\n']
    rw [List.append_nil]
    exact (List.dropLast_append_getLast? _ h).symm
  · rw [if_neg h, if_neg h]

theorem formatHeader_New (out : File) (pfx : String) (t : Time) :
    (log.New out pfx (log.Ldate ||| log.Ltime)).formatHeader t
      = pfx ++ log.dateStamp t ++ " " ++ log.timeStamp t ++ " " := by
  have h1 : (log.Ldate ||| log.Ltime) &&& log.Lmsgprefix = 0 := by decide
  have h2 : (log.Ldate ||| log.Ltime) &&& log.Ldate ≠ 0 := by decide
  have h3 : (log.Ldate ||| log.Ltime) &&& log.Ltime ≠ 0 := by decide
  simp only [log.Logger.formatHeader, log.New, h1, h2, h3, if_true, ne_eq, not_true_eq_false,
    not_false_eq_true, if_false]

theorem call_Printf_New (S : Formatter) (n : Nat) (tag p format : String)
    (args : List Value) (m : Machine) :
    (FuncVal.Printf n (log.New .Stdout (tag ++ ": " ++ p) (log.Ldate ||| log.Ltime))).call
        S format args m
      = .ok ((), { m with
          calls := m.calls ++ [⟨Addr.obj n, format, args⟩]
          world := { m.world with
            stdout := m.world.stdout ++ logLine tag p m.world.now (chomp (S format args)) } }) := by
  have hline : (log.New .Stdout (tag ++ ": " ++ p) (log.Ldate ||| log.Ltime)).formatHeader
        m.world.now ++ S format args ++ log.terminator (S format args)
      = logLine tag p m.world.now (chomp (S format args)) := by
    rw [formatHeader_New, String.append_assoc _ (S format args), append_terminator]
    simp only [logLine, String.append_assoc]
  simp only [FuncVal.call, FuncVal.ptr, log.Logger.Printf, log.Logger.Output]
  rw [hline]
  rfl

theorem isOneLine_logLine (tag p : String) (t : Time) (msg : String)
    (htag : '\n' ∉ tag.data) (hp : '\n' ∉ p.data) (hmsg : '\n' ∉ msg.data) :
    isOneLine (logLine tag p t msg) = true := by
  have hd := dateStamp_no_newline t
  have ht := timeStamp_no_newline t
  have hlast : (logLine tag p t msg).data.getLast? = some '\n' := by
    unfold logLine
    rw [String.data_append]
    exact List.getLast?_concat _
  have hcount : newlines (logLine tag p t msg) = 1 := by
    simp [newlines, logLine, String.data_append, List.count_append,
      List.count_eq_zero_of_not_mem, htag, hp, hmsg, hd, ht]
  simp [isOneLine, hlast, hcount]

/-- C6, as stated, fails: the `Errorf` sink of `NewLogger(LogLevelError, "wg0: ")`
called with the format `"a\nb"` (no operands) puts two lines on standard
output, not exactly one. -/
theorem Errorf_sink_two_lines :
    stdoutAfter ((NewLogger LogLevelError "wg0: " Machine.boot).1.Errorf.call sprintfBasic
        "a\nb" [] (init Machine.boot))
      = some "ERROR: wg0: 2020/01/02 03:04:05 a\nb\n" ∧
    isOneLine "ERROR: wg0: 2020/01/02 03:04:05 a\nb\n" = false ∧
    newlines "ERROR: wg0: 2020/01/02 03:04:05 a\nb\n" = 2 := by
  decide

/-- C6, amended: for every prefix `p`, every level at which the slot is not the
sentinel, every format and arguments, one call of the `Errorf` sink of
`NewLogger(level, p)` returns and appends to standard output (and to nothing
else) `"ERROR: "`, `p`, the local date, a space, the local time, a space, the
formatted message without its final newline if it has one, and a newline;
that is exactly one line whenever neither `p` nor that message contains a
newline.  The `Verbosef` sink does the same with the tag `"DEBUG"`.  When the
formatter turns `"count=%d"` with operand 5 into `"count=5"`, the text
appended ends in `"count=5"` followed by the newline. -/
theorem NewLogger_sink_output (S : Formatter) (level : Int) (p format : String)
    (args : List Value) (m0 m : Machine) :
    ((NewLogger level p m0).1.Errorf ≠ FuncVal.DiscardLogf →
      ∃ m1, (NewLogger level p m0).1.Errorf.call S format args m = .ok ((), m1) ∧
        m1.world.stdout
          = m.world.stdout ++ logLine "ERROR" p m.world.now (chomp (S format args)) ∧
        m1.world.stderr = m.world.stderr ∧
        ('\n' ∉ p.data → '\n' ∉ (chomp (S format args)).data →
          isOneLine (logLine "ERROR" p m.world.now (chomp (S format args))) = true)) ∧
    ((NewLogger level p m0).1.Verbosef ≠ FuncVal.DiscardLogf →
      ∃ m1, (NewLogger level p m0).1.Verbosef.call S format args m = .ok ((), m1) ∧
        m1.world.stdout
          = m.world.stdout ++ logLine "DEBUG" p m.world.now (chomp (S format args)) ∧
        m1.world.stderr = m.world.stderr ∧
        ('\n' ∉ p.data → '\n' ∉ (chomp (S format args)).data →
          isOneLine (logLine "DEBUG" p m.world.now (chomp (S format args))) = true)) ∧
    (S "count=%d" [Value.int 5] = "count=5" →
      ((NewLogger level p m0).1.Errorf ≠ FuncVal.DiscardLogf →
        stdoutAfter ((NewLogger level p m0).1.Errorf.call S "count=%d" [Value.int 5] m)
          = some (m.world.stdout ++ ("ERROR: " ++ p ++ log.dateStamp m.world.now ++ " "
              ++ log.timeStamp m.world.now ++ " " ++ "count=5" ++ "\n"))) ∧
      ((NewLogger level p m0).1.Verbosef ≠ FuncVal.DiscardLogf →
        stdoutAfter ((NewLogger level p m0).1.Verbosef.call S "count=%d" [Value.int 5] m)
          = some (m.world.stdout ++ ("DEBUG: " ++ p ++ log.dateStamp m.world.now ++ " "
              ++ log.timeStamp m.world.now ++ " " ++ "count=5" ++ "\n")))) := by
  have hE : (NewLogger level p m0).1.Errorf ≠ FuncVal.DiscardLogf →
      ∃ n, (NewLogger level p m0).1.Errorf
        = FuncVal.Printf n (log.New .Stdout ("ERROR" ++ ": " ++ p) (log.Ldate ||| log.Ltime)) := by
    rw [NewLogger_Errorf_eq]
    intro h
    split at h
    · rename_i hl
      exact ⟨_, if_pos hl⟩
    · exact absurd rfl h
  have hV : (NewLogger level p m0).1.Verbosef ≠ FuncVal.DiscardLogf →
      ∃ n, (NewLogger level p m0).1.Verbosef
        = FuncVal.Printf n (log.New .Stdout ("DEBUG" ++ ": " ++ p) (log.Ldate ||| log.Ltime)) := by
    rw [NewLogger_Verbosef_eq]
    intro h
    split at h
    · rename_i hl
      exact ⟨_, if_pos hl⟩
    · exact absurd rfl h
  refine ⟨?_, ?_, ?_⟩
  · intro h
    obtain ⟨n, hn⟩ := hE h
    rw [hn, call_Printf_New]
    exact ⟨_, rfl, rfl, rfl,
      fun hp hmsg => isOneLine_logLine _ _ _ _ (by decide) hp hmsg⟩
  · intro h
    obtain ⟨n, hn⟩ := hV h
    rw [hn, call_Printf_New]
    exact ⟨_, rfl, rfl, rfl,
      fun hp hmsg => isOneLine_logLine _ _ _ _ (by decide) hp hmsg⟩
  · intro hS
    have hc : chomp "count=5" = "count=5" := by decide
    constructor
    · intro h
      obtain ⟨n, hn⟩ := hE h
      rw [hn, call_Printf_New, hS, hc]
      rfl
    · intro h
      obtain ⟨n, hn⟩ := hV h
      rw [hn, call_Printf_New, hS, hc]
      rfl

/-- Witness for the amended C6: the `Errorf` sink of
`NewLogger(LogLevelError, "wg0: ")` called with `"count=%d"` and 5. -/
theorem NewLogger_sink_output_witness :
    sprintfBasic "count=%d" [Value.int 5] = "count=5" ∧
    (NewLogger LogLevelError "wg0: " Machine.boot).1.Errorf ≠ FuncVal.DiscardLogf ∧
    stdoutAfter ((NewLogger LogLevelError "wg0: " Machine.boot).1.Errorf.call sprintfBasic
        "count=%d" [Value.int 5] (init Machine.boot))
      = some ((init Machine.boot).world.stdout ++ ("ERROR: " ++ "wg0: "
          ++ log.dateStamp (init Machine.boot).world.now ++ " "
          ++ log.timeStamp (init Machine.boot).world.now ++ " " ++ "count=5" ++ "\n")) :=
  ⟨by decide, fun h => (by cases h),
   ((NewLogger_sink_output sprintfBasic LogLevelError "wg0: " "count=%d" [Value.int 5]
      Machine.boot (init Machine.boot)).2.2 (by decide)).1 (fun h => by cases h)⟩

end wireguard
